import Mathlib

/-!
Verification of the PR-filtering and stratified-sampling pipeline consisting of
`script/samples.py` (module-level pipeline) and `script/table1.py` (`main`).
Tabular data (pandas DataFrames) is embedded as lists of records; the three
input tables are `Repo` (repository.parquet), `PR` (pull_request.parquet) and
`Comment` (pr_comments.parquet), each restricted to the columns the scripts
load.  Fallible steps (a pandas `astype(int)` over a column containing nulls,
and sklearn's `train_test_split`, which can raise `ValueError`) are embedded in
the `Except String` monad.
-/

/-- Row of `repository.parquet`, columns loaded by both scripts: `id`, `stars`. -/
structure Repo where
  id : Int
  stars : Int
deriving DecidableEq, Repr

/-- Row of `pull_request.parquet`, columns loaded by both scripts:
`id, repo_id, agent, user, state, merged_at, html_url`.  `merged_at` is a
nullable timestamp, embedded as `Option String`. -/
structure PR where
  id : Int
  repo_id : Int
  agent : String
  user : String
  state : String
  merged_at : Option String
  html_url : String
deriving DecidableEq, Repr

/-- Row of `pr_comments.parquet`, columns loaded by both scripts:
`pr_id` (nullable in general, hence `Option Int`) and `user_type`. -/
structure Comment where
  pr_id : Option Int
  user_type : String
deriving DecidableEq, Repr

/-- Config constant `MIN_STARS = 500` (both scripts). -/
def MIN_STARS : Int := 500

/-- Config constant `RANDOM_STATE = 72` (`samples.py` line 10). -/
def RANDOM_STATE : Nat := 72

/-- Config constant `VALIDATE_AGREEMENT_SAMPLE = 30` (`samples.py` line 11). -/
def VALIDATE_AGREEMENT_SAMPLE : Nat := 30

/-- The fixed agent roster `AGENTS` (both scripts). -/
def AGENTS : List String := ["Claude_Code", "Copilot", "Cursor", "Devin", "OpenAI_Codex"]

/-- The fixed bot-handle list `BOT_LIST` (both scripts). -/
def BOT_LIST : List String :=
  ["copilot-swe-agent[bot]",
   "cursor[bot]",
   "gemini-code-assist[bot]",
   "copilot-pull-request-reviewer[bot]",
   "coderabbitai[bot]",
   "ellipsis-dev[bot]",
   "greptile-apps[bot]",
   "entelligence-ai-pr-reviews[bot]",
   "Copilot",
   "github-advanced-security[bot]"]

/-- Ids of repositories with `stars >= MIN_STARS`
(`repo_ids` in `samples.py` line 62 / `table1.py` line 133). -/
def repoIds (repos : List Repo) : List Int :=
  (repos.filter (fun r => MIN_STARS ≤ r.stars)).map (fun r => r.id)

/-- The `selected` frame: PRs whose `repo_id` is an eligible repository id and
whose `state` is `"closed"` (`samples.py` lines 64-66 / `table1.py` lines 136-138). -/
def selectedPRs (repos : List Repo) (prs : List PR) : List PR :=
  prs.filter (fun pr => (repoIds repos).contains pr.repo_id && pr.state == "closed")

/-- The `bot_assigned` frame: selected PRs whose `user` is in `BOT_LIST`
(`samples.py` line 68 / `table1.py` line 143). -/
def botAssigned (repos : List Repo) (prs : List PR) : List PR :=
  (selectedPRs repos prs).filter (fun pr => BOT_LIST.contains pr.user)

/-- The set of PR ids with at least one comment of `user_type == "User"`, as
computed by `table1.py` lines 146-152: filter to `"User"` rows, `dropna()` on
`pr_id`, collect the ids.  (`set(...)` membership is what matters downstream;
the embedding keeps the id list and uses list membership.) -/
def humanCommentedIds (comments : List Comment) : List Int :=
  (comments.filter (fun c => c.user_type == "User")).filterMap (fun c => c.pr_id)

/-- The `excluded_ids` set: ids of `bot_assigned` rows whose id is not in the
human-commented id set (`samples.py` lines 74-78 / `table1.py` lines 154-157),
parameterized by the human-commented id list. -/
def excludedIds (repos : List Repo) (prs : List PR) (humanIds : List Int) : List Int :=
  ((botAssigned repos prs).filter (fun pr => !(humanIds.contains pr.id))).map (fun pr => pr.id)

/-- The `kept` frame: selected PRs whose id is not excluded
(`samples.py` line 80 / `table1.py` line 159). -/
def keptPRs (repos : List Repo) (prs : List PR) (humanIds : List Int) : List PR :=
  (selectedPRs repos prs).filter (fun pr => !((excludedIds repos prs humanIds).contains pr.id))

/-- Derived column `is_merged = merged_at.notna()`
(`samples.py` line 81 / `table1.py` line 160). -/
def isMerged (pr : PR) : Bool :=
  pr.merged_at.isSome

/-- C1: the Selector satisfies the partition property.  `kept` is exactly
`selected` restricted to non-excluded ids; every excluded id is the id of a
bot-assigned row and every bot-assigned row is selected; and a PR id `p` of
the selected set is excluded iff some bot-assigned row carries id `p` (its
`user` is in `BOT_LIST`) and no comment of `user_type "User"` carries id `p`. -/
theorem C1_selector_partition (repos : List Repo) (prs : List PR) (comments : List Comment) :
    (keptPRs repos prs (humanCommentedIds comments) =
      (selectedPRs repos prs).filter
        (fun pr => !((excludedIds repos prs (humanCommentedIds comments)).contains pr.id))) ∧
    (∀ i ∈ excludedIds repos prs (humanCommentedIds comments),
      i ∈ (botAssigned repos prs).map (fun pr => pr.id)) ∧
    (∀ pr ∈ botAssigned repos prs, pr ∈ selectedPRs repos prs) ∧
    (∀ p ∈ (selectedPRs repos prs).map (fun pr => pr.id),
      (p ∈ excludedIds repos prs (humanCommentedIds comments) ↔
        ((∃ pr ∈ botAssigned repos prs, pr.id = p) ∧
          ¬ (∃ c ∈ comments, c.user_type = "User" ∧ c.pr_id = some p)))) := by
  refine ⟨rfl, ?_, ?_, ?_⟩
  · intro i hi
    simp only [excludedIds, List.mem_map, List.mem_filter] at hi
    rcases hi with ⟨pr, ⟨hpr, _⟩, hid⟩
    exact List.mem_map.mpr ⟨pr, hpr, hid⟩
  · intro pr hpr
    exact List.mem_of_mem_filter hpr
  · intro p _
    have hhuman : ∀ q : Int, q ∈ humanCommentedIds comments ↔
        (∃ c ∈ comments, c.user_type = "User" ∧ c.pr_id = some q) := by
      intro q
      simp only [humanCommentedIds, List.mem_filterMap, List.mem_filter]
      constructor
      · rintro ⟨c, ⟨hc, ht⟩, hid⟩
        exact ⟨c, hc, by simpa using ht, hid⟩
      · rintro ⟨c, hc, ht, hid⟩
        exact ⟨c, ⟨hc, by simpa using ht⟩, hid⟩
    constructor
    · intro hp
      simp only [excludedIds, List.mem_map, List.mem_filter] at hp
      rcases hp with ⟨pr, ⟨hbot, hncont⟩, hid⟩
      refine ⟨⟨pr, hbot, hid⟩, ?_⟩
      intro hc
      rw [← hhuman p] at hc
      rw [← hid] at hc
      simp [hc] at hncont
    · rintro ⟨⟨pr, hbot, hid⟩, hnc⟩
      have : ¬ (p ∈ humanCommentedIds comments) := fun h => hnc ((hhuman p).mp h)
      simp only [excludedIds, List.mem_map, List.mem_filter]
      refine ⟨pr, ⟨hbot, ?_⟩, hid⟩
      rw [hid]
      simpa using this

/-- Witness for C1 at a concrete input (the first scenario of spec §8): one
eligible repository, one selected PR, empty comments. -/
theorem C1_selector_partition_witness :
    ((10 : Int) ∈ (selectedPRs [⟨1, 600⟩]
        [⟨10, 1, "Devin", "alice", "closed", some "2024-01-01", "u10"⟩]).map (fun pr => pr.id)) ∧
    ((10 : Int) ∈ excludedIds [⟨1, 600⟩]
        [⟨10, 1, "Devin", "alice", "closed", some "2024-01-01", "u10"⟩] (humanCommentedIds []) ↔
      ((∃ pr ∈ botAssigned [⟨1, 600⟩]
          [⟨10, 1, "Devin", "alice", "closed", some "2024-01-01", "u10"⟩], pr.id = 10) ∧
        ¬ (∃ c ∈ ([] : List Comment), c.user_type = "User" ∧ c.pr_id = some 10))) :=
  ⟨by decide,
    (C1_selector_partition [⟨1, 600⟩]
      [⟨10, 1, "Devin", "alice", "closed", some "2024-01-01", "u10"⟩] []).2.2.2 10 (by decide)⟩

/-- Row of the aggregated Table 1: `groupby("agent")` with `total = count(id)`,
`merged = sum(is_merged)`, and the derived column `rejected = total - merged`. -/
structure AgentRow where
  agent : String
  total : Nat
  merged : Nat
  rejected : Nat
deriving DecidableEq, Repr

/-- Lexicographic code-point comparison of character lists, used to model the
sorted key order of pandas `groupby` (group keys are emitted in sorted order). -/
def charListLe : List Char → List Char → Bool
  | [], _ => true
  | _ :: _, [] => false
  | x :: xs, y :: ys => if x < y then true else if y < x then false else charListLe xs ys

/-- String "less or equal" (lexicographic on code points). -/
def strLe (a b : String) : Prop := charListLe a.data b.data = true

instance : DecidableRel strLe := fun _ _ => instDecidableEqBool _ _

/-- The group keys of `kept.groupby("agent")`: the distinct agent values, in
sorted order (pandas sorts group keys). -/
def sortedAgents (kept : List PR) : List String :=
  List.insertionSort strLe ((kept.map (fun pr => pr.agent)).dedup)

/-- One aggregated row of `kept.groupby("agent").agg(...)` together with the
derived `rejected = total - merged` column (`samples.py` lines 83-88 /
`table1.py` lines 294-299). -/
def mkAgentRow (kept : List PR) (a : String) : AgentRow :=
  let rows := kept.filter (fun pr => pr.agent == a)
  { agent := a
    total := rows.length
    merged := (rows.filter isMerged).length
    rejected := rows.length - (rows.filter isMerged).length }

/-- The aggregated table before the roster filter. -/
def groupedTable (kept : List PR) : List AgentRow :=
  (sortedAgents kept).map (mkAgentRow kept)

/-- Table 1 as computed by `samples.py` line 89: the aggregated table filtered
to roster agents (`table1 = table1[table1["agent"].isin(AGENTS)]`), left in
groupby key order. -/
def table1S (kept : List PR) : List AgentRow :=
  (groupedTable kept).filter (fun r => AGENTS.contains r.agent)

/-- Position of an agent in the fixed roster (`order = \x7ba: i for i, a in
enumerate(AGENTS)\x7d` in `table1.py` line 302). -/
def rosterIndex (a : String) : Nat := AGENTS.indexOf a

/-- Ordering of table rows by roster position, used by `table1.py`'s
`sort_values("__order")` (a stable sort on the mapped roster index). -/
def rosterLe (r1 r2 : AgentRow) : Prop := rosterIndex r1.agent ≤ rosterIndex r2.agent

instance : DecidableRel rosterLe := fun _ _ => Nat.decLe _ _

instance : IsTotal AgentRow rosterLe := ⟨fun _ _ => Nat.le_total _ _⟩

instance : IsTrans AgentRow rosterLe := ⟨fun _ _ _ => Nat.le_trans⟩

/-- Table 1 as computed by `table1.py` lines 301-307: the roster-filtered
aggregated table, stably sorted by roster index. -/
def table1T (kept : List PR) : List AgentRow :=
  List.insertionSort rosterLe (table1S kept)

/-- Summing, over a duplicate-free list of keys covering all of `m`'s images
under `f`, the sizes of the fibres of `f` over each key gives the size of `m`. -/
theorem sum_filter_lengths {α β : Type} [BEq β] [LawfulBEq β]
    (cs : List β) (f : α → β) :
    ∀ m : List α, cs.Nodup → (∀ x ∈ m, f x ∈ cs) →
      (cs.map (fun c => (m.filter (fun x => f x == c)).length)).sum = m.length := by
  induction cs with
  | nil =>
    intro m _ hcov
    cases m with
    | nil => simp
    | cons x xs => exact absurd (hcov x (by simp)) (by simp)
  | cons c cs ih =>
    intro m hn hcov
    have hn' : cs.Nodup := (List.nodup_cons.mp hn).2
    have hc : c ∉ cs := (List.nodup_cons.mp hn).1
    have htail : ∀ c' ∈ cs,
        (m.filter (fun x => f x == c')).length
          = ((m.filter (fun x => !(f x == c))).filter (fun x => f x == c')).length := by
      intro c' hc'
      have hne : c' ≠ c := fun h => hc (h ▸ hc')
      rw [List.filter_filter]
      congr 1
      apply List.filter_congr
      intro x _
      by_cases h : f x = c'
      · simp [h, hne]
      · simp [h]
    have hsum :
        (cs.map (fun c' => (m.filter (fun x => f x == c')).length)).sum
          = (cs.map (fun c' =>
              ((m.filter (fun x => !(f x == c))).filter (fun x => f x == c')).length)).sum := by
      congr 1
      exact List.map_congr_left htail
    have hcov' : ∀ x ∈ m.filter (fun x => !(f x == c)), f x ∈ cs := by
      intro x hx
      rcases List.mem_filter.mp hx with ⟨hxm, hxc⟩
      have := hcov x hxm
      simp only [List.mem_cons] at this
      rcases this with h | h
      · simp [h] at hxc
      · exact h
    have hsplit :
        (m.filter (fun x => f x == c)).length + (m.filter (fun x => !(f x == c))).length
          = m.length := by
      exact (List.length_eq_length_filter_add (fun x => f x == c)).symm
    simp only [List.map_cons, List.sum_cons]
    rw [hsum, ih (m.filter (fun x => !(f x == c))) hn' hcov', hsplit]

/-- The groupby keys are duplicate-free. -/
theorem sortedAgents_nodup (kept : List PR) : (sortedAgents kept).Nodup :=
  ((List.perm_insertionSort strLe _).nodup_iff).mpr (List.nodup_dedup _)

/-- A string is a groupby key iff it occurs as an agent of some kept PR. -/
theorem mem_sortedAgents (kept : List PR) (a : String) :
    a ∈ sortedAgents kept ↔ a ∈ kept.map (fun pr => pr.agent) := by
  unfold sortedAgents
  rw [(List.perm_insertionSort strLe _).mem_iff, List.mem_dedup]

/-- The agent column of `samples.py`'s Table 1 is the key list restricted to
roster agents. -/
theorem table1S_map_agent (kept : List PR) :
    (table1S kept).map (fun r => r.agent)
      = (sortedAgents kept).filter (fun a => AGENTS.contains a) := by
  simp only [table1S, groupedTable, List.filter_map, List.map_map]
  have h2 : ((fun r : AgentRow => AGENTS.contains r.agent) ∘ mkAgentRow kept)
      = fun a => AGENTS.contains a := rfl
  have h1 : ((fun r : AgentRow => r.agent) ∘ mkAgentRow kept) = fun a : String => a := rfl
  rw [h1, h2]
  exact List.map_id' _

/-- The agent column of `samples.py`'s Table 1 has no duplicates. -/
theorem table1S_agents_nodup (kept : List PR) :
    ((table1S kept).map (fun r => r.agent)).Nodup := by
  rw [table1S_map_agent]
  exact (sortedAgents_nodup kept).filter _

/-- Characterization of the rows of `samples.py`'s Table 1. -/
theorem mem_table1S (kept : List PR) (r : AgentRow) :
    r ∈ table1S kept ↔
      (r.agent ∈ AGENTS ∧ r.agent ∈ kept.map (fun pr => pr.agent)
        ∧ r = mkAgentRow kept r.agent) := by
  constructor
  · intro hr
    rcases List.mem_filter.mp hr with ⟨hmem, hcont⟩
    rcases List.mem_map.mp hmem with ⟨a, ha, hrw⟩
    have hag : r.agent = a := by rw [← hrw]; exact rfl
    subst hag
    refine ⟨by simpa using hcont, (mem_sortedAgents kept r.agent).mp ha, hrw.symm⟩
  · rintro ⟨hA, hmem, hr⟩
    apply List.mem_filter.mpr
    refine ⟨List.mem_map.mpr ⟨r.agent, (mem_sortedAgents kept r.agent).mpr hmem, hr.symm⟩,
      by simpa using hA⟩

/-- The total column of `samples.py`'s Table 1, as per-agent fibre sizes of
`kept`. -/
theorem table1S_map_total (kept : List PR) :
    (table1S kept).map (fun r => r.total)
      = ((sortedAgents kept).filter (fun a => AGENTS.contains a)).map
          (fun a => (kept.filter (fun pr => pr.agent == a)).length) := by
  simp only [table1S, groupedTable, List.filter_map, List.map_map]
  have h2 : ((fun r : AgentRow => AGENTS.contains r.agent) ∘ mkAgentRow kept)
      = fun a => AGENTS.contains a := rfl
  have h1 : ((fun r : AgentRow => r.total) ∘ mkAgentRow kept)
      = fun a => (kept.filter (fun pr => pr.agent == a)).length := rfl
  rw [h1, h2]

/-- Summed over the roster-filtered keys, the per-agent totals count exactly
the kept PRs whose agent is a roster agent. -/
theorem table1S_sum_total (kept : List PR) :
    ((table1S kept).map (fun r => r.total)).sum
      = (kept.filter (fun pr => AGENTS.contains pr.agent)).length := by
  rw [table1S_map_total]
  set cs := (sortedAgents kept).filter (fun a => AGENTS.contains a) with hcs
  have hkey : ∀ c ∈ cs,
      (kept.filter (fun pr => pr.agent == c)).length
        = ((kept.filter (fun pr => AGENTS.contains pr.agent)).filter
            (fun pr => pr.agent == c)).length := by
    intro c hc
    have hcA : AGENTS.contains c = true := (List.mem_filter.mp hc).2
    have hcA' : c ∈ AGENTS := by simpa using hcA
    rw [List.filter_filter]
    congr 1
    apply List.filter_congr
    intro x _
    by_cases h : x.agent = c
    · simp [h, hcA']
    · simp [h]
  rw [List.map_congr_left hkey]
  refine sum_filter_lengths cs (fun pr => pr.agent)
    (kept.filter (fun pr => AGENTS.contains pr.agent)) ?_ ?_
  · exact (sortedAgents_nodup kept).filter _
  · intro x hx
    rcases List.mem_filter.mp hx with ⟨hxk, hxA⟩
    rw [hcs, List.mem_filter]
    refine ⟨?_, hxA⟩
    exact (mem_sortedAgents kept x.agent).mpr (List.mem_map.mpr ⟨x, hxk, rfl⟩)

/-- C5: in Table 1, each agent row satisfies `rejected = total - merged` (with
`merged <= total`), and the sum of the total column equals the number of kept
PRs whose agent is in the fixed roster — both for `samples.py`'s table and for
`table1.py`'s roster-sorted table. -/
theorem C5_aggregation (kept : List PR) :
    (∀ r ∈ table1S kept, r.rejected = r.total - r.merged ∧ r.merged ≤ r.total) ∧
    (∀ r ∈ table1T kept, r.rejected = r.total - r.merged ∧ r.merged ≤ r.total) ∧
    ((table1S kept).map (fun r => r.total)).sum
      = (kept.filter (fun pr => AGENTS.contains pr.agent)).length ∧
    ((table1T kept).map (fun r => r.total)).sum
      = (kept.filter (fun pr => AGENTS.contains pr.agent)).length := by
  have hrow : ∀ r ∈ table1S kept, r.rejected = r.total - r.merged ∧ r.merged ≤ r.total := by
    intro r hr
    rcases (mem_table1S kept r).mp hr with ⟨_, _, hrw⟩
    rw [hrw]
    exact ⟨rfl, List.length_filter_le _ _⟩
  have hperm : (table1T kept).Perm (table1S kept) := List.perm_insertionSort rosterLe _
  refine ⟨hrow, ?_, table1S_sum_total kept, ?_⟩
  · intro r hr
    exact hrow r (hperm.mem_iff.mp hr)
  · rw [(hperm.map (fun r => r.total)).sum_eq]
    exact table1S_sum_total kept

/-- Witness for C5 at a concrete one-PR kept list. -/
theorem C5_aggregation_witness :
    (mkAgentRow [⟨10, 1, "Devin", "alice", "closed", some "2024-01-01", "u10"⟩] "Devin")
        ∈ table1S [⟨10, 1, "Devin", "alice", "closed", some "2024-01-01", "u10"⟩] ∧
    (mkAgentRow [⟨10, 1, "Devin", "alice", "closed", some "2024-01-01", "u10"⟩] "Devin").rejected
      = (mkAgentRow [⟨10, 1, "Devin", "alice", "closed", some "2024-01-01", "u10"⟩] "Devin").total
        - (mkAgentRow [⟨10, 1, "Devin", "alice", "closed", some "2024-01-01", "u10"⟩] "Devin").merged :=
  ⟨by decide,
    ((C5_aggregation [⟨10, 1, "Devin", "alice", "closed", some "2024-01-01", "u10"⟩]).1
      (mkAgentRow [⟨10, 1, "Devin", "alice", "closed", some "2024-01-01", "u10"⟩] "Devin")
      (by decide)).1⟩

/-- Distinct roster agents have distinct roster indices. -/
theorem rosterIndex_inj (a b : String) (ha : a ∈ AGENTS) (hb : b ∈ AGENTS) :
    rosterIndex a = rosterIndex b → a = b := by
  simp only [AGENTS, List.mem_cons, List.mem_singleton, List.not_mem_nil, or_false] at ha hb
  rcases ha with rfl | rfl | rfl | rfl | rfl <;>
    rcases hb with rfl | rfl | rfl | rfl | rfl <;> decide

/-- Every agent of a Table 1 row is a roster agent occurring in `kept`. -/
theorem table1S_agent_mem (kept : List PR) :
    ∀ a ∈ (table1S kept).map (fun r => r.agent),
      a ∈ AGENTS ∧ a ∈ kept.map (fun pr => pr.agent) := by
  intro a ha
  rcases List.mem_map.mp ha with ⟨r, hr, hrw⟩
  rcases (mem_table1S kept r).mp hr with ⟨hA, hmem, _⟩
  exact ⟨hrw ▸ hA, hrw ▸ hmem⟩

/-- C4 counterexample: with a single kept Devin PR, Table 1 (as produced by
`table1.py`) has no row for roster agent "Claude_Code", so the table does not
contain one row for every agent of the fixed roster. -/
theorem C4_counterexample :
    ¬ ∃ r ∈ table1T [⟨10, 1, "Devin", "alice", "closed", some "2024-01-01", "u10"⟩],
        r.agent = "Claude_Code" := by decide

/-- C4 (amended): Table 1 contains exactly one row for every roster agent that
occurs among the kept PRs' agents and no row for any other agent; the rows of
`table1.py`'s table appear in roster order (strictly increasing roster index),
and `samples.py`'s table has the same rows (a permutation). -/
theorem C4_roster_table (kept : List PR) :
    ((table1T kept).map (fun r => r.agent)).Nodup ∧
    (∀ a : String, (∃ r ∈ table1T kept, r.agent = a) ↔
      (a ∈ AGENTS ∧ a ∈ kept.map (fun pr => pr.agent))) ∧
    ((table1T kept).map (fun r => rosterIndex r.agent)).Pairwise (fun i j => i < j) ∧
    (table1T kept).Perm (table1S kept) := by
  have hperm : (table1T kept).Perm (table1S kept) := List.perm_insertionSort rosterLe _
  have hnle : ((table1T kept).map (fun r => r.agent)).Nodup :=
    ((hperm.map (fun r => r.agent)).nodup_iff).mpr (table1S_agents_nodup kept)
  have hmemA : ∀ a ∈ (table1T kept).map (fun r => r.agent), a ∈ AGENTS := by
    intro a ha
    have := table1S_agent_mem kept a ((hperm.map (fun r => r.agent)).mem_iff.mp ha)
    exact this.1
  refine ⟨hnle, ?_, ?_, hperm⟩
  · intro a
    constructor
    · rintro ⟨r, hr, rfl⟩
      rcases (mem_table1S kept r).mp (hperm.mem_iff.mp hr) with ⟨hA, hmem, _⟩
      exact ⟨hA, hmem⟩
    · rintro ⟨hA, hmem⟩
      refine ⟨mkAgentRow kept a, ?_, rfl⟩
      apply hperm.mem_iff.mpr
      exact (mem_table1S kept (mkAgentRow kept a)).mpr ⟨hA, hmem, rfl⟩
  · have hsorted : List.Sorted rosterLe (table1T kept) :=
      List.sorted_insertionSort rosterLe (table1S kept)
    have hle : ((table1T kept).map (fun r => rosterIndex r.agent)).Pairwise
        (fun i j => i ≤ j) := by
      rw [List.pairwise_map]
      exact hsorted
    have hnodup : ((table1T kept).map (fun r => rosterIndex r.agent)).Nodup := by
      have : (table1T kept).map (fun r => rosterIndex r.agent)
          = ((table1T kept).map (fun r => r.agent)).map rosterIndex := by
        rw [List.map_map]
        exact rfl
      rw [this]
      apply List.Nodup.map_on ?_ hnle
      intro x hx y hy hxy
      exact rosterIndex_inj x y (hmemA x hx) (hmemA y hy) hxy
    have := (hle.and hnodup).imp (fun h => lt_of_le_of_ne h.1 h.2)
    exact this

/-- Step of a linear-congruential pseudo-random stream.  This is the
deterministic stand-in used to model the seeded NumPy `RandomState` that
sklearn's splitter draws from: every use of randomness below is a pure
function of the seed through `lcgNext`. -/
def lcgNext (s : Nat) : Nat := (s * 1103515245 + 12345) % 2147483648

/-- Modelled from sklearn `StratifiedShuffleSplit._iter_indices` (the helper
that `samples.py`'s `train_test_split(..., stratify=...)` call delegates to):
walk the strata in order, give each stratum its proportional share of the
`n` train draws (floor of the proportional quota via cascade rounding over the
running prefix sum `pre`, which distributes the rounding remainders and makes
the shares sum to `n`, modelling `_approximate_mode`'s largest-remainder
allocation with its RNG tie-breaking replaced by the deterministic cascade),
shuffle each stratum with the seeded stream (modelled as a seeded rotation),
and put the first `alloc` rows of the stratum into the train part and the rest
into the test part (in sklearn the test allocation of a stratum provably
equals its size minus the train allocation, since train and test sizes sum to
the pool size). -/
def splitGo {α : Type} (l : List α) (col : α → String) (n T : Nat) :
    Nat → Nat → List String → List α × List α
  | _, _, [] => ([], [])
  | s, pre, c :: cs =>
    let rows := l.filter (fun x => col x == c)
    let cnt := rows.length
    let alloc := (pre + cnt) * n / T - pre * n / T
    let permuted := rows.rotate (lcgNext s)
    let rest := splitGo l col n T (lcgNext s) (pre + cnt) cs
    (permuted.take alloc ++ rest.1, permuted.drop alloc ++ rest.2)

/-- Modelled from `sklearn.model_selection.train_test_split` with
`stratify=df[col]` and an integer `test_size`, as called by
`stratified_n_sample` (`samples.py` lines 44-49).  The validation mirrors
sklearn's `StratifiedShuffleSplit._iter_indices`: it raises `ValueError` when
the least populated class has fewer than 2 members, and when the train or the
test size is smaller than the number of classes; otherwise it returns the
stratified `(train, test)` split, each part shuffled by the seeded stream
(modelled as a seeded rotation).  `train` has `len(df) - test_size` rows and
`test` the remaining `test_size` rows. -/
def train_test_split {α : Type} (pool : List α) (testSize : Nat) (col : α → String)
    (seed : Nat) : Except String (List α × List α) :=
  let T := pool.length
  let nTrain := T - testSize
  let classes := (pool.map col).dedup
  if classes.any (fun c => (pool.filter (fun x => col x == c)).length < 2) then
    Except.error "ValueError: the least populated class has fewer than 2 members"
  else if nTrain < classes.length then
    Except.error "ValueError: train_size too small for the number of classes"
  else if testSize < classes.length then
    Except.error "ValueError: test_size too small for the number of classes"
  else
    let p := splitGo pool col nTrain T seed 0 classes
    Except.ok ((p.1).rotate (lcgNext (lcgNext seed)), (p.2).rotate (lcgNext seed))

/-- The sampler `stratified_n_sample(df, n, col)` of `samples.py` lines 38-50:
clamp `n` to the pool size, return `(empty, df)` when the clamped `n` is zero
and `(df, empty)` when it equals the pool size, and otherwise delegate to the
stratified `train_test_split` with `test_size = len(df) - n` and the seed
(`random_state=RANDOM_STATE` at every call site). -/
def stratified_n_sample {α : Type} (df : List α) (n0 : Nat) (col : α → String)
    (seed : Nat) : Except String (List α × List α) :=
  let n := min n0 df.length
  if n = 0 then Except.ok ([], df)
  else if n = df.length then Except.ok (df, [])
  else train_test_split df (df.length - n) col seed

/-- Sum of a one-hot map over a duplicate-free list. -/
theorem sum_if_single {β : Type} [BEq β] [LawfulBEq β] (b : β) (k : Nat) :
    ∀ cs : List β, cs.Nodup →
      (cs.map (fun c => if b == c then k else 0)).sum = if b ∈ cs then k else 0 := by
  intro cs
  induction cs with
  | nil => simp
  | cons c cs ih =>
    intro hn
    rcases List.nodup_cons.mp hn with ⟨hc, hn'⟩
    simp only [List.map_cons, List.sum_cons, ih hn']
    by_cases h : b = c
    · subst h
      simp [hc]
    · simp [h]

/-- Splitting a list into the fibres of `f` over the distinct values of `f`
and concatenating gives back a permutation of the list. -/
theorem classes_flatten_perm {α β : Type} [DecidableEq α] [BEq β] [LawfulBEq β]
    [DecidableEq β] (l : List α) (f : α → β) :
    (((l.map f).dedup).map (fun c => l.filter (fun x => f x == c))).flatten.Perm l := by
  rw [List.perm_iff_count]
  intro x
  rw [List.count_flatten, List.map_map]
  have hterm : ∀ c ∈ (l.map f).dedup,
      (List.count x ∘ fun c => l.filter (fun y => f y == c)) c
        = (fun c => if f x == c then List.count x l else 0) c := by
    intro c _
    simp only [Function.comp_apply]
    by_cases h : f x = c
    · rw [List.count_filter (by simpa using h)]
      simp [h]
    · have hx : x ∉ l.filter (fun y => f y == c) := by
        intro hmem
        exact h (by simpa using (List.mem_filter.mp hmem).2)
      rw [List.count_eq_zero.mpr hx]
      simp [h]
  rw [List.map_congr_left hterm]
  rw [sum_if_single (f x) (List.count x l) _ (List.nodup_dedup _)]
  by_cases hx : x ∈ l
  · rw [if_pos (List.mem_dedup.mpr (List.mem_map.mpr ⟨x, hx, rfl⟩))]
  · rw [List.count_eq_zero.mpr hx]
    simp

/-- The two parts produced by `splitGo` together are a permutation of the
concatenated fibres of the processed strata. -/
theorem splitGo_append_perm {α : Type} [DecidableEq α] (l : List α) (col : α → String)
    (n T : Nat) :
    ∀ (cs : List String) (s pre : Nat),
      ((splitGo l col n T s pre cs).1 ++ (splitGo l col n T s pre cs).2).Perm
        ((cs.map (fun c => l.filter (fun x => col x == c))).flatten) := by
  intro cs
  induction cs with
  | nil => intro s pre; simp [splitGo]
  | cons c cs ih =>
    intro s pre
    simp only [splitGo, List.map_cons, List.flatten_cons]
    rw [List.perm_iff_count]
    intro x
    have h1 : List.count x (((l.filter (fun y => col y == c)).rotate (lcgNext s)).take
          ((pre + (l.filter (fun y => col y == c)).length) * n / T - pre * n / T))
        + List.count x (((l.filter (fun y => col y == c)).rotate (lcgNext s)).drop
          ((pre + (l.filter (fun y => col y == c)).length) * n / T - pre * n / T))
        = List.count x (l.filter (fun y => col y == c)) := by
      rw [← List.count_append, List.take_append_drop]
      exact (List.rotate_perm _ _).count_eq x
    have h2 := ((ih (lcgNext s) (pre + (l.filter (fun y => col y == c)).length)).count_eq) x
    rw [List.count_append] at h2
    simp only [List.count_append]
    omega

/-- Each cascade-rounded stratum allocation is at most the stratum size. -/
theorem alloc_le (pre c n T : Nat) (h : n ≤ T) :
    (pre + c) * n / T - pre * n / T ≤ c := by
  rcases Nat.eq_zero_or_pos T with hT | hT
  · have hn : n = 0 := by omega
    subst hn
    simp
  · have h2 : c * n ≤ c * T := Nat.mul_le_mul_left c h
    have h3 : (pre + c) * n = pre * n + c * n := by ring
    have h1 : (pre + c) * n ≤ pre * n + c * T := by omega
    have h4 : (pre + c) * n / T ≤ (pre * n + c * T) / T := Nat.div_le_div_right h1
    have h5 : (pre * n + c * T) / T = pre * n / T + c := Nat.add_mul_div_right _ _ hT
    omega

/-- The train part of `splitGo` has exactly the telescoped cascade size. -/
theorem splitGo_train_length {α : Type} (l : List α) (col : α → String) (n T : Nat)
    (hnT : n ≤ T) :
    ∀ (cs : List String) (s pre : Nat),
      (splitGo l col n T s pre cs).1.length
        = (pre + (cs.map (fun c => (l.filter (fun x => col x == c)).length)).sum) * n / T
          - pre * n / T := by
  intro cs
  induction cs with
  | nil => intro s pre; simp [splitGo]
  | cons c cs ih =>
    intro s pre
    simp only [splitGo, List.length_append, List.map_cons, List.sum_cons]
    have hrot : ((l.filter (fun y => col y == c)).rotate (lcgNext s)).length
        = (l.filter (fun y => col y == c)).length := List.length_rotate _ _
    have hle : (pre + (l.filter (fun y => col y == c)).length) * n / T - pre * n / T
        ≤ (l.filter (fun y => col y == c)).length := alloc_le _ _ _ _ hnT
    have htake : (((l.filter (fun y => col y == c)).rotate (lcgNext s)).take
          ((pre + (l.filter (fun y => col y == c)).length) * n / T - pre * n / T)).length
        = (pre + (l.filter (fun y => col y == c)).length) * n / T - pre * n / T := by
      rw [List.length_take, hrot]
      omega
    rw [htake, ih (lcgNext s) (pre + (l.filter (fun y => col y == c)).length)]
    have hassoc : pre + (l.filter (fun y => col y == c)).length
          + (cs.map (fun c => (l.filter (fun x => col x == c)).length)).sum
        = pre + ((l.filter (fun y => col y == c)).length
          + (cs.map (fun c => (l.filter (fun x => col x == c)).length)).sum) := by omega
    rw [← hassoc]
    have hm12 : pre * n / T ≤ (pre + (l.filter (fun y => col y == c)).length) * n / T :=
      Nat.div_le_div_right (Nat.mul_le_mul_right n (by omega))
    have hm23 : (pre + (l.filter (fun y => col y == c)).length) * n / T
        ≤ (pre + (l.filter (fun y => col y == c)).length
            + (cs.map (fun c => (l.filter (fun x => col x == c)).length)).sum) * n / T :=
      Nat.div_le_div_right (Nat.mul_le_mul_right n (by omega))
    omega

/-- A successful stratified `train_test_split` partitions the pool. -/
theorem train_test_split_ok_perm {α : Type} [DecidableEq α] (pool : List α)
    (testSize : Nat) (col : α → String) (seed : Nat) (a b : List α)
    (h : train_test_split pool testSize col seed = Except.ok (a, b)) :
    (a ++ b).Perm pool := by
  simp only [train_test_split] at h
  split_ifs at h
  simp only [Except.ok.injEq, Prod.mk.injEq] at h
  obtain ⟨h1, h2⟩ := h
  subst h1
  subst h2
  refine ((List.rotate_perm _ _).append (List.rotate_perm _ _)).trans ?_
  exact (splitGo_append_perm pool col (pool.length - testSize) pool.length
    ((pool.map col).dedup) seed 0).trans (classes_flatten_perm pool col)

/-- A successful stratified `train_test_split` returns a train part of exactly
`len(pool) - test_size` rows. -/
theorem train_test_split_ok_train_length {α : Type} [DecidableEq α] (pool : List α)
    (testSize : Nat) (col : α → String) (seed : Nat) (a b : List α)
    (hT : 0 < pool.length)
    (h : train_test_split pool testSize col seed = Except.ok (a, b)) :
    a.length = pool.length - testSize := by
  simp only [train_test_split] at h
  split_ifs at h
  simp only [Except.ok.injEq, Prod.mk.injEq] at h
  obtain ⟨h1, h2⟩ := h
  subst h1
  rw [List.length_rotate]
  rw [splitGo_train_length pool col (pool.length - testSize) pool.length (by omega)]
  have hsum : (((pool.map col).dedup).map
      (fun c => (pool.filter (fun x => col x == c)).length)).sum = pool.length := by
    have hlen := (classes_flatten_perm pool col).length_eq
    rw [List.length_flatten, List.map_map] at hlen
    exact hlen
  rw [hsum]
  have hz : (0 + pool.length) = pool.length := by omega
  rw [hz, Nat.mul_div_cancel_left _ hT]
  simp

/-- A successful call of the sampler partitions the pool (as multisets). -/
theorem stratified_ok_perm {α : Type} [DecidableEq α] (df : List α) (n0 : Nat)
    (col : α → String) (seed : Nat) (a b : List α)
    (h : stratified_n_sample df n0 col seed = Except.ok (a, b)) :
    (a ++ b).Perm df := by
  simp only [stratified_n_sample] at h
  split_ifs at h with h1 h2
  · simp only [Except.ok.injEq, Prod.mk.injEq] at h
    obtain ⟨rfl, rfl⟩ := h
    simp
  · simp only [Except.ok.injEq, Prod.mk.injEq] at h
    obtain ⟨rfl, rfl⟩ := h
    simp
  · exact train_test_split_ok_perm df (df.length - min n0 df.length) col seed a b h

/-- A successful call of the sampler returns a sample of exactly
`min n (pool size)` rows. -/
theorem stratified_ok_sample_length {α : Type} [DecidableEq α] (df : List α) (n0 : Nat)
    (col : α → String) (seed : Nat) (a b : List α)
    (h : stratified_n_sample df n0 col seed = Except.ok (a, b)) :
    a.length = min n0 df.length := by
  simp only [stratified_n_sample] at h
  split_ifs at h with h1 h2
  · simp only [Except.ok.injEq, Prod.mk.injEq] at h
    obtain ⟨rfl, rfl⟩ := h
    simp [h1]
  · simp only [Except.ok.injEq, Prod.mk.injEq] at h
    obtain ⟨rfl, rfl⟩ := h
    omega
  · have hT : 0 < df.length := by omega
    have := train_test_split_ok_train_length df (df.length - min n0 df.length) col seed
      a b hT h
    have hmin : min n0 df.length ≤ df.length := Nat.min_le_right _ _
    omega

/-- The sampler clamps: when the requested size reaches the pool size, the
whole pool is returned as the sample and the remainder is empty. -/
theorem stratified_clamp {α : Type} (df : List α) (n0 : Nat) (col : α → String)
    (seed : Nat) (h : df.length ≤ n0) :
    stratified_n_sample df n0 col seed = Except.ok (df, []) := by
  simp only [stratified_n_sample]
  have hmin : min n0 df.length = df.length := Nat.min_eq_right h
  rw [hmin]
  rcases Nat.eq_zero_or_pos df.length with hz | hp
  · rw [if_pos hz]
    have : df = [] := List.eq_nil_of_length_eq_zero hz
    rw [this]
  · rw [if_neg (by omega), if_pos rfl]

/-- C2: whenever `stratified_n_sample(pool, n, col)` returns a pair
`(sample, remainder)`, the two parts are a partition of the pool: together
they are a permutation of the pool (no loss, no duplication), the sample has
exactly `min n (pool size)` rows, and (for a duplicate-free pool) no row is in
both parts. -/
theorem C2_sampling_partition {α : Type} [DecidableEq α] (pool : List α) (n : Nat)
    (col : α → String) (seed : Nat) (sample remainder : List α)
    (h : stratified_n_sample pool n col seed = Except.ok (sample, remainder)) :
    (sample ++ remainder).Perm pool ∧
    sample.length = min n pool.length ∧
    (pool.Nodup → ∀ x ∈ sample, x ∉ remainder) := by
  have hperm := stratified_ok_perm pool n col seed sample remainder h
  refine ⟨hperm, stratified_ok_sample_length pool n col seed sample remainder h, ?_⟩
  intro hnd x hx
  have hnd' : (sample ++ remainder).Nodup := (hperm.nodup_iff).mpr hnd
  exact (List.disjoint_of_nodup_append hnd') hx

/-- Example PR row used as concrete input by witnesses. -/
def prDevin : PR := ⟨10, 1, "Devin", "alice", "closed", some "2024-01-01", "u10"⟩

/-- Witness for C2 at a concrete call (`n = 0` branch of the sampler). -/
theorem C2_sampling_partition_witness :
    (([] : List PR) ++ [prDevin]).Perm [prDevin] ∧
    ([] : List PR).length = min 0 [prDevin].length ∧
    ([prDevin].Nodup → ∀ x ∈ ([] : List PR), x ∉ [prDevin]) :=
  C2_sampling_partition [prDevin] 0 (fun pr => pr.agent) RANDOM_STATE [] [prDevin] rfl

/-- C3 evaluation: on a pool whose "Cursor" stratum has a single member and a
request of `n = 1` (so `0 < n < len(pool)`), the sampler does not fall back to
taking the whole sparse stratum — the underlying sklearn splitter raises
`ValueError`, so the call fails instead of succeeding. -/
theorem C3_sparse_stratum_raises :
    stratified_n_sample
      ([⟨1, 1, "Devin", "u1", "closed", none, "h1"⟩,
        ⟨2, 1, "Devin", "u2", "closed", none, "h2"⟩,
        ⟨3, 1, "Cursor", "u3", "closed", none, "h3"⟩] : List PR) 1
      (fun pr => pr.agent) RANDOM_STATE
      = Except.error "ValueError: the least populated class has fewer than 2 members" := rfl

/-- C7: boundary behavior of the sampler.  A request of `0` returns
`(empty, pool)`; a request of at least the pool size (in particular exactly
the pool size) returns `(pool, empty)`; and an empty pool with any requested
size returns the empty pool as the sample rather than an error. -/
theorem C7_boundary {α : Type} :
    (∀ (pool : List α) (col : α → String) (seed : Nat),
      stratified_n_sample pool 0 col seed = Except.ok ([], pool)) ∧
    (∀ (pool : List α) (n : Nat) (col : α → String) (seed : Nat), pool.length ≤ n →
      stratified_n_sample pool n col seed = Except.ok (pool, [])) ∧
    (∀ (n : Nat) (col : α → String) (seed : Nat),
      stratified_n_sample ([] : List α) n col seed = Except.ok ([], [])) := by
  refine ⟨?_, ?_, ?_⟩
  · intro pool col seed
    simp [stratified_n_sample]
  · intro pool n col seed h
    exact stratified_clamp pool n col seed h
  · intro n col seed
    have h := stratified_clamp ([] : List α) n col seed (by simp)
    simpa using h

/-- Witness for C7: the pool-sized-request branch at a concrete pool. -/
theorem C7_boundary_witness :
    ([prDevin] : List PR).length ≤ 1 ∧
    stratified_n_sample [prDevin] 1 (fun pr => pr.agent) RANDOM_STATE
      = Except.ok ([prDevin], []) :=
  ⟨by decide,
    (C7_boundary).2.1 [prDevin] 1 (fun pr => pr.agent) RANDOM_STATE (by decide)⟩

/-- The human-commented id set as computed by `samples.py` lines 70-72:
`set(comments.loc[comments["user_type"] == "User", "pr_id"].astype(int))`.
Unlike `table1.py` there is no `dropna()`, so pandas' `astype(int)` raises a
`ValueError` when some `"User"` comment has a null `pr_id`; otherwise the same
id set is produced. -/
def humanCommentedIdsE (comments : List Comment) : Except String (List Int) :=
  let u := comments.filter (fun c => c.user_type == "User")
  if u.all (fun c => c.pr_id.isSome) then Except.ok (u.filterMap (fun c => c.pr_id))
  else Except.error "ValueError: cannot convert non-finite values to integer"

/-- Resolution of sklearn's `random_state` argument: a concrete value seeds
the splitter with exactly that value, while `None` would fall back to ambient
process randomness.  `samples.py` always passes `random_state=RANDOM_STATE`. -/
def resolveSeed (randomState : Option Nat) (ambient : Nat) : Nat :=
  randomState.getD ambient

/-- The accepted pool `combined_accepted = kept[kept["is_merged"]]`
(`samples.py` line 92). -/
def combinedAccepted (kept : List PR) : List PR :=
  kept.filter isMerged

/-- The rejected pool `combined_rejected = kept[~kept["is_merged"]]`
(`samples.py` line 93). -/
def combinedRejected (kept : List PR) : List PR :=
  kept.filter (fun pr => !(isMerged pr))

/-- Sample size `ACCEPT_SAMPLE_SIZE = int(table1["merged"].sum())` (`samples.py` line 96). -/
def ACCEPT_SAMPLE_SIZE (tbl : List AgentRow) : Nat :=
  (tbl.map (fun r => r.merged)).sum

/-- Sample size `REJECT_SAMPLE_SIZE = int(table1["rejected"].sum())` (`samples.py` line 97). -/
def REJECT_SAMPLE_SIZE (tbl : List AgentRow) : Nat :=
  (tbl.map (fun r => r.rejected)).sum

/-- The four sample frames written as CSV by `samples.py` lines 118-129. -/
structure SampleOutputs where
  sample_check_rejected : List PR
  sample_check_accepts : List PR
  manual_check_rejected : List PR
  manual_check_accepted : List PR
deriving DecidableEq, Repr

/-- The module-level sampling pipeline of `samples.py` (lines 62-113): build
the human-commented ids, kept PRs and Table 1, derive the two manual sample
sizes, split the kept PRs into the accepted and rejected pools, draw the two
fixed-size agreement samples from the full pools, and draw the two manual
samples from the respective remainders (their own remainders are discarded).
`ambient` stands for the ambient process randomness that an unseeded run would
consume; every sampling call passes `random_state=RANDOM_STATE`. -/
def runSamples (ambient : Nat) (repos : List Repo) (prs : List PR)
    (comments : List Comment) : Except String SampleOutputs := do
  let humanIds ← humanCommentedIdsE comments
  let kept := keptPRs repos prs humanIds
  let tbl := table1S kept
  let acceptSize := ACCEPT_SAMPLE_SIZE tbl
  let rejectSize := REJECT_SAMPLE_SIZE tbl
  let seed := resolveSeed (some RANDOM_STATE) ambient
  let (scr, rrem) ← stratified_n_sample (combinedRejected kept)
    VALIDATE_AGREEMENT_SAMPLE (fun pr => pr.agent) seed
  let (sca, arem) ← stratified_n_sample (combinedAccepted kept)
    VALIDATE_AGREEMENT_SAMPLE (fun pr => pr.agent) seed
  let (mcr, _) ← stratified_n_sample rrem rejectSize (fun pr => pr.agent) seed
  let (mca, _) ← stratified_n_sample arem acceptSize (fun pr => pr.agent) seed
  Except.ok ⟨scr, sca, mcr, mca⟩

/-- One CSV line of the exported columns `EXPORT_COLS = [id, html_url, agent]`. -/
def csvLine (pr : PR) : String :=
  toString pr.id ++ "," ++ pr.html_url ++ "," ++ pr.agent

/-- A sample frame rendered as the CSV text written by `to_csv(..., index=False)`:
a header line followed by one line per row. -/
def toCsv (rows : List PR) : String :=
  String.intercalate "\n" ("id,html_url,agent" :: rows.map csvLine)

/-- The four CSV artifacts of a run, in the order they are written
(`sample_check_rejected`, `sample_check_accepts`, `manual_check_rejected`,
`manual_check_accepted`). -/
def runCsvOutputs (ambient : Nat) (repos : List Repo) (prs : List PR)
    (comments : List Comment) : Except String (List String) :=
  (runSamples ambient repos prs comments).map (fun o =>
    [toCsv o.sample_check_rejected, toCsv o.sample_check_accepts,
     toCsv o.manual_check_rejected, toCsv o.manual_check_accepted])

/-- C8: the pipeline is deterministic under the fixed seed.  Two runs over
identical input tables, whatever ambient randomness each process would
otherwise have consumed, produce the same result of every sampling call and
hence identical (byte-identical) contents for the four sample CSV outputs. -/
theorem C8_seed_determinism (ambient1 ambient2 : Nat) (repos : List Repo)
    (prs : List PR) (comments : List Comment) :
    runSamples ambient1 repos prs comments = runSamples ambient2 repos prs comments ∧
    runCsvOutputs ambient1 repos prs comments = runCsvOutputs ambient2 repos prs comments :=
  ⟨rfl, rfl⟩

/-- C6: the agreement-check and manual-check samples are disjoint on each
partition (the manual samples are drawn only from the remainder left after the
agreement sample was removed), and the sampler clamps a request that reaches
the pool size to the entire pool. -/
theorem C6_agreement_manual_disjoint (ambient : Nat) (repos : List Repo) (prs : List PR)
    (comments : List Comment) (out : SampleOutputs)
    (hids : (prs.map (fun pr => pr.id)).Nodup)
    (hrun : runSamples ambient repos prs comments = Except.ok out) :
    (∀ i ∈ out.manual_check_accepted.map (fun pr => pr.id),
      i ∉ out.sample_check_accepts.map (fun pr => pr.id)) ∧
    (∀ i ∈ out.manual_check_rejected.map (fun pr => pr.id),
      i ∉ out.sample_check_rejected.map (fun pr => pr.id)) ∧
    (∀ (pool : List PR) (n : Nat) (col : PR → String) (seed : Nat), pool.length ≤ n →
      stratified_n_sample pool n col seed = Except.ok (pool, [])) := by
  simp only [runSamples, bind, Except.bind] at hrun
  cases hh : humanCommentedIdsE comments with
  | error e => rw [hh] at hrun; exact Except.noConfusion hrun
  | ok humanIds =>
  rw [hh] at hrun
  dsimp only at hrun
  cases h1 : stratified_n_sample (combinedRejected (keptPRs repos prs humanIds))
      VALIDATE_AGREEMENT_SAMPLE (fun pr => pr.agent)
      (resolveSeed (some RANDOM_STATE) ambient) with
  | error e => rw [h1] at hrun; exact Except.noConfusion hrun
  | ok p1 =>
  rw [h1] at hrun
  dsimp only at hrun
  cases h2 : stratified_n_sample (combinedAccepted (keptPRs repos prs humanIds))
      VALIDATE_AGREEMENT_SAMPLE (fun pr => pr.agent)
      (resolveSeed (some RANDOM_STATE) ambient) with
  | error e => rw [h2] at hrun; exact Except.noConfusion hrun
  | ok p2 =>
  rw [h2] at hrun
  dsimp only at hrun
  cases h3 : stratified_n_sample p1.2
      (REJECT_SAMPLE_SIZE (table1S (keptPRs repos prs humanIds))) (fun pr => pr.agent)
      (resolveSeed (some RANDOM_STATE) ambient) with
  | error e => rw [h3] at hrun; exact Except.noConfusion hrun
  | ok p3 =>
  rw [h3] at hrun
  dsimp only at hrun
  cases h4 : stratified_n_sample p2.2
      (ACCEPT_SAMPLE_SIZE (table1S (keptPRs repos prs humanIds))) (fun pr => pr.agent)
      (resolveSeed (some RANDOM_STATE) ambient) with
  | error e => rw [h4] at hrun; exact Except.noConfusion hrun
  | ok p4 =>
  rw [h4] at hrun
  dsimp only at hrun
  simp only [Except.ok.injEq] at hrun
  subst hrun
  have hkept : (keptPRs repos prs humanIds).Sublist prs :=
    (List.filter_sublist _).trans (List.filter_sublist _)
  have hca : (combinedAccepted (keptPRs repos prs humanIds)).Sublist prs :=
    (List.filter_sublist _).trans hkept
  have hcr : (combinedRejected (keptPRs repos prs humanIds)).Sublist prs :=
    (List.filter_sublist _).trans hkept
  have hndca : ((combinedAccepted (keptPRs repos prs humanIds)).map
      (fun pr => pr.id)).Nodup :=
    List.Nodup.sublist (hca.map (fun pr => pr.id)) hids
  have hndcr : ((combinedRejected (keptPRs repos prs humanIds)).map
      (fun pr => pr.id)).Nodup :=
    List.Nodup.sublist (hcr.map (fun pr => pr.id)) hids
  have hperm2 := stratified_ok_perm _ _ _ _ _ _ h2
  have hperm1 := stratified_ok_perm _ _ _ _ _ _ h1
  have hperm4 := stratified_ok_perm _ _ _ _ _ _ h4
  have hperm3 := stratified_ok_perm _ _ _ _ _ _ h3
  refine ⟨?_, ?_, fun pool n col seed h => stratified_clamp pool n col seed h⟩
  · intro i hi
    have hnd2 : ((p2.1 ++ p2.2).map (fun pr => pr.id)).Nodup :=
      ((hperm2.map (fun pr => pr.id)).nodup_iff).mpr hndca
    rw [List.map_append] at hnd2
    have hdisj := List.disjoint_of_nodup_append hnd2
    have hi' : i ∈ (p4.1 ++ p4.2).map (fun pr => pr.id) := by
      rw [List.map_append]
      exact List.mem_append_left _ hi
    have hi2 : i ∈ p2.2.map (fun pr => pr.id) :=
      ((hperm4.map (fun pr => pr.id)).mem_iff).mp hi'
    exact fun hin => hdisj hin hi2
  · intro i hi
    have hnd1 : ((p1.1 ++ p1.2).map (fun pr => pr.id)).Nodup :=
      ((hperm1.map (fun pr => pr.id)).nodup_iff).mpr hndcr
    rw [List.map_append] at hnd1
    have hdisj := List.disjoint_of_nodup_append hnd1
    have hi' : i ∈ (p3.1 ++ p3.2).map (fun pr => pr.id) := by
      rw [List.map_append]
      exact List.mem_append_left _ hi
    have hi2 : i ∈ p1.2.map (fun pr => pr.id) :=
      ((hperm3.map (fun pr => pr.id)).mem_iff).mp hi'
    exact fun hin => hdisj hin hi2

/-- Witness for C6 at the empty input tables (the run succeeds with four empty
samples). -/
theorem C6_agreement_manual_disjoint_witness :
    (∀ i ∈ (SampleOutputs.mk [] [] [] []).manual_check_accepted.map (fun pr => pr.id),
      i ∉ (SampleOutputs.mk [] [] [] []).sample_check_accepts.map (fun pr => pr.id)) ∧
    (∀ i ∈ (SampleOutputs.mk [] [] [] []).manual_check_rejected.map (fun pr => pr.id),
      i ∉ (SampleOutputs.mk [] [] [] []).sample_check_rejected.map (fun pr => pr.id)) ∧
    (∀ (pool : List PR) (n : Nat) (col : PR → String) (seed : Nat), pool.length ≤ n →
      stratified_n_sample pool n col seed = Except.ok (pool, [])) :=
  C6_agreement_manual_disjoint 0 [] [] [] (SampleOutputs.mk [] [] [] [])
    (by decide) rfl

/-- Lookup by a key that is duplicate-free is invariant under permutation. -/
theorem find_eq_of_perm_of_nodup_keys {γ : Type} (key : γ → String) (l1 l2 : List γ)
    (hp : l1.Perm l2) (hnd : (l2.map key).Nodup) (a : String) :
    l1.find? (fun r => key r == a) = l2.find? (fun r => key r == a) := by
  cases h2 : l2.find? (fun r => key r == a) with
  | none =>
    rw [List.find?_eq_none] at h2 ⊢
    intro x hx
    exact h2 x (hp.mem_iff.mp hx)
  | some y =>
    have hy := List.find?_some h2
    have hymem : y ∈ l2 := List.mem_of_find?_eq_some h2
    cases h1 : l1.find? (fun r => key r == a) with
    | none =>
      rw [List.find?_eq_none] at h1
      exact absurd hy (h1 y (hp.mem_iff.mpr hymem))
    | some z =>
      have hz := List.find?_some h1
      have hzmem : z ∈ l1 := List.mem_of_find?_eq_some h1
      have hkey : key z = key y := by
        have hz' : key z = a := by simpa using hz
        have hy' : key y = a := by simpa using hy
        rw [hz', hy']
      have : z = y := List.inj_on_of_nodup_map hnd (hp.mem_iff.mp hzmem) hymem hkey
      rw [this]

/-- C9: the two scripts implement the same Selector and Aggregator.  On inputs
where every `"User"` comment has a non-null `pr_id`, `samples.py`'s
human-commented id computation succeeds and returns exactly `table1.py`'s id
list, the two scripts compute the same kept PRs with the same `is_merged`
annotation, and for every roster agent the two Table 1 variants contain the
same `(total, merged, rejected)` row. -/
theorem C9_scripts_equivalent (repos : List Repo) (prs : List PR) (comments : List Comment)
    (h : (comments.filter (fun c => c.user_type == "User")).all
      (fun c => c.pr_id.isSome) = true) :
    humanCommentedIdsE comments = Except.ok (humanCommentedIds comments) ∧
    ((humanCommentedIdsE comments).map (fun ids =>
        (keptPRs repos prs ids).map (fun pr => (pr, isMerged pr))))
      = Except.ok ((keptPRs repos prs (humanCommentedIds comments)).map
          (fun pr => (pr, isMerged pr))) ∧
    (∀ a ∈ AGENTS,
      (table1S (keptPRs repos prs (humanCommentedIds comments))).find?
          (fun r => r.agent == a)
        = (table1T (keptPRs repos prs (humanCommentedIds comments))).find?
          (fun r => r.agent == a)) := by
  have h1 : humanCommentedIdsE comments = Except.ok (humanCommentedIds comments) := by
    simp only [humanCommentedIdsE, humanCommentedIds]
    rw [if_pos h]
  refine ⟨h1, by rw [h1]; exact rfl, ?_⟩
  intro a _
  exact (find_eq_of_perm_of_nodup_keys (fun r => r.agent) _ _
    (List.perm_insertionSort rosterLe _)
    (table1S_agents_nodup (keptPRs repos prs (humanCommentedIds comments))) a).symm

/-- Witness for C9 at a concrete input with one human comment. -/
theorem C9_scripts_equivalent_witness :
    humanCommentedIdsE [⟨some 10, "User"⟩] = Except.ok (humanCommentedIds [⟨some 10, "User"⟩]) :=
  (C9_scripts_equivalent [⟨1, 600⟩] [prDevin] [⟨some 10, "User"⟩] (by decide)).1

/-- Summing fibre sizes over any duplicate-free key list never exceeds the
size of the list being fibred. -/
theorem sum_filter_lengths_le {α β : Type} [BEq β] [LawfulBEq β]
    (cs : List β) (f : α → β) :
    ∀ m : List α, cs.Nodup →
      (cs.map (fun c => (m.filter (fun x => f x == c)).length)).sum ≤ m.length := by
  induction cs with
  | nil => intro m _; simp
  | cons c cs ih =>
    intro m hn
    rcases List.nodup_cons.mp hn with ⟨hc, hn'⟩
    have htail : ∀ c' ∈ cs,
        (m.filter (fun x => f x == c')).length
          = ((m.filter (fun x => !(f x == c))).filter (fun x => f x == c')).length := by
      intro c' hc'
      have hne : c' ≠ c := fun h => hc (h ▸ hc')
      rw [List.filter_filter]
      congr 1
      apply List.filter_congr
      intro x _
      by_cases h : f x = c'
      · simp [h, hne]
      · simp [h]
    have hsplit :
        (m.filter (fun x => f x == c)).length + (m.filter (fun x => !(f x == c))).length
          = m.length :=
      (List.length_eq_length_filter_add (fun x => f x == c)).symm
    simp only [List.map_cons, List.sum_cons]
    rw [List.map_congr_left htail]
    have := ih (m.filter (fun x => !(f x == c))) hn'
    omega

/-- The merged column of Table 1 as per-agent fibre sizes of the accepted pool. -/
theorem table1S_map_merged (kept : List PR) :
    (table1S kept).map (fun r => r.merged)
      = ((sortedAgents kept).filter (fun a => AGENTS.contains a)).map
          (fun a => ((combinedAccepted kept).filter (fun pr => pr.agent == a)).length) := by
  simp only [table1S, groupedTable, List.filter_map, List.map_map]
  have h2 : ((fun r : AgentRow => AGENTS.contains r.agent) ∘ mkAgentRow kept)
      = fun a => AGENTS.contains a := rfl
  rw [h2]
  apply List.map_congr_left
  intro a _
  show ((kept.filter (fun pr => pr.agent == a)).filter isMerged).length
      = ((combinedAccepted kept).filter (fun pr => pr.agent == a)).length
  rw [List.filter_comm]
  exact rfl

/-- The rejected column of Table 1 as per-agent fibre sizes of the rejected
pool. -/
theorem table1S_map_rejected (kept : List PR) :
    (table1S kept).map (fun r => r.rejected)
      = ((sortedAgents kept).filter (fun a => AGENTS.contains a)).map
          (fun a => ((combinedRejected kept).filter (fun pr => pr.agent == a)).length) := by
  simp only [table1S, groupedTable, List.filter_map, List.map_map]
  have h2 : ((fun r : AgentRow => AGENTS.contains r.agent) ∘ mkAgentRow kept)
      = fun a => AGENTS.contains a := rfl
  rw [h2]
  apply List.map_congr_left
  intro a _
  show (kept.filter (fun pr => pr.agent == a)).length
        - ((kept.filter (fun pr => pr.agent == a)).filter isMerged).length
      = ((combinedRejected kept).filter (fun pr => pr.agent == a)).length
  have hsplit :=
    List.length_eq_length_filter_add (l := kept.filter (fun pr => pr.agent == a)) isMerged
  have hcomm : ((kept.filter (fun pr => pr.agent == a)).filter
        (fun pr => !(isMerged pr))).length
      = ((combinedRejected kept).filter (fun pr => pr.agent == a)).length := by
    rw [List.filter_comm]
    exact rfl
  omega

/-- Example PR row generator for the non-roster sampling scenario. -/
def mkExPR (i : Nat) (agent : String) (merged : Bool) : PR :=
  ⟨Int.ofNat i, 1, agent, "human", "closed",
    if merged then some "2024-01-01" else none, "url"⟩

/-- Example PR table: 20 merged and 20 rejected "Devin" PRs together with 13
merged and 13 rejected PRs of the non-roster agent "Zeta", all closed and on
one eligible repository. -/
def exPrs : List PR :=
  ((List.range 20).map (fun i => mkExPR i "Devin" true))
    ++ ((List.range 13).map (fun i => mkExPR (20 + i) "Zeta" true))
    ++ ((List.range 20).map (fun i => mkExPR (33 + i) "Devin" false))
    ++ ((List.range 13).map (fun i => mkExPR (53 + i) "Zeta" false))

/-- Example repository table: one repository above the star threshold. -/
def exRepos : List Repo := [⟨1, 600⟩]

/-- C10: the sampling pools keep non-roster agents while the manual-check
target sizes count only roster agents.  For every kept set,
`ACCEPT_SAMPLE_SIZE` (the Table 1 merged sum) is at most the accepted pool
size and `REJECT_SAMPLE_SIZE` at most the rejected pool size; and on the
example input every one of the four output samples contains a kept PR whose
agent ("Zeta") is outside the fixed roster. -/
theorem C10_nonroster_pools :
    (∀ kept : List PR,
      ACCEPT_SAMPLE_SIZE (table1S kept) ≤ (combinedAccepted kept).length ∧
      REJECT_SAMPLE_SIZE (table1S kept) ≤ (combinedRejected kept).length) ∧
    ((runSamples 0 exRepos exPrs []).toOption.map (fun out =>
        out.sample_check_accepts.any (fun pr => !(AGENTS.contains pr.agent)) &&
        out.manual_check_accepted.any (fun pr => !(AGENTS.contains pr.agent)) &&
        out.sample_check_rejected.any (fun pr => !(AGENTS.contains pr.agent)) &&
        out.manual_check_rejected.any (fun pr => !(AGENTS.contains pr.agent))))
      = some true := by
  constructor
  · intro kept
    constructor
    · show ((table1S kept).map (fun r => r.merged)).sum ≤ (combinedAccepted kept).length
      rw [table1S_map_merged]
      exact sum_filter_lengths_le _ _ _ ((sortedAgents_nodup kept).filter _)
    · show ((table1S kept).map (fun r => r.rejected)).sum ≤ (combinedRejected kept).length
      rw [table1S_map_rejected]
      exact sum_filter_lengths_le _ _ _ ((sortedAgents_nodup kept).filter _)
  · decide
